import Mathlib

/-!
Verification development for the aggregator-latency-benchmark repository.

The Go sources are shallowly embedded as follows:
  * `time.Time` values are integers counting nanoseconds since the Unix epoch;
    millisecond-valued quantities are plain `Int`s in milliseconds.
  * `time.Duration.Milliseconds()` divides nanoseconds by 10^6 truncating
    toward zero, exactly as Go does (`Int.tdiv`).
  * Prometheus operations are modelled as an effect trace (`MetricEffect`):
    a recording function returns the list of metric operations it performs.
    Gauge/histogram values are rationals; every value the program feeds them
    is derived from an `int64` of magnitude far below 2^53, so the Go
    `float64` carries it exactly and the comparisons below are exact.
  * Fallible operations return `Except`/`Option`; a Go runtime panic is
    modelled as `Option.none`.
-/

/-- Nanoseconds per millisecond, matching Go's `time.Millisecond`. -/
def nsPerMs : Int := 1000000

/-- Nanoseconds per second, matching Go's `time.Second`. -/
def nsPerSec : Int := 1000000000

/-- Go `time.UnixMilli ms`: the instant `ms` milliseconds after the epoch,
in nanoseconds. -/
def timeUnixMilli (ms : Int) : Int := ms * nsPerMs

/-- Go `time.Unix sec 0`: the instant `sec` seconds after the epoch,
in nanoseconds. -/
def timeUnix (sec : Int) : Int := sec * nsPerSec

/-- Go `time.Duration.Milliseconds()`: integer division of nanoseconds by
10^6, truncating toward zero. -/
def durationMilliseconds (ns : Int) : Int := Int.tdiv ns nsPerMs

/-- Embeds `calculateMobulaLag` (mobula_monitor.go): the trade timestamp is
in milliseconds, the lag is `receiveTime.Sub(tradeTime).Milliseconds()`. -/
def calculateMobulaLag (tradeTimestamp : Int) (receiveTimeNs : Int) : Int :=
  durationMilliseconds (receiveTimeNs - timeUnixMilli tradeTimestamp)

/-- Embeds `calculateCodexLag` (codex_monitor.go): the block timestamp is in
seconds (`time.Unix(blockTimestamp, 0)`). -/
def calculateCodexLag (blockTimestamp : Int) (receiveTimeNs : Int) : Int :=
  durationMilliseconds (receiveTimeNs - timeUnix blockTimestamp)

/-- Embeds `calculateCoinGeckoLag` (geckoterminal_monitor.go): the trade
timestamp is in milliseconds. -/
def calculateCoinGeckoLag (tradeTimestamp : Int) (receiveTimeNs : Int) : Int :=
  durationMilliseconds (receiveTimeNs - timeUnixMilli tradeTimestamp)

/-- One Prometheus operation performed by a recording function. -/
inductive MetricEffect where
  | setGauge (name : String) (labels : List String) (value : ℚ)
  | incCounter (name : String) (labels : List String)
  | observeHistogram (name : String) (labels : List String) (value : ℚ)
  | recordLag (provider : String) (chain : String) (lagMs : ℚ)
  deriving DecidableEq, Repr

/-- Embeds `RecordPoolDiscoveryLatency` (metrics.go lines 202-209): values
negative or above 120000 ms are filtered out, in-bounds values set the
`pool_discovery_latency_milliseconds` gauge. -/
def RecordPoolDiscoveryLatency (aggregator : String) (chain : String)
    (latencyMs : ℚ) : List MetricEffect :=
  if latencyMs < 0 ∨ latencyMs > 120000 then []
  else [.setGauge "pool_discovery_latency_milliseconds" [aggregator, chain] latencyMs]

/-- Embeds `RecordHeadLag` (metrics.go lines 257-261): sets the two head-lag
gauges unconditionally, with no bounds check. -/
def RecordHeadLag (aggregator : String) (chain : String)
    (lagBlocks : Int) (lagSeconds : ℚ) : List MetricEffect :=
  [.setGauge "head_lag_milliseconds" [aggregator, chain] (lagBlocks : ℚ),
   .setGauge "head_lag_seconds" [aggregator, chain] lagSeconds]

/-- Modelled from the spec: `RecordLatency` is called by the Mobula, Codex
and CoinGecko trade monitors but its definition is missing from src/; the
spec's Metrics Sink interface (§6) exposes `record_lag(provider, chain,
lag_ms)` as a plain forwarding operation, so it is modelled as an
unconditional forward to the sink. -/
def RecordLatency (aggregator : String) (chain : String) (lagMs : ℚ) :
    List MetricEffect :=
  [.recordLag aggregator chain lagMs]

/-- Embeds `RecordMetadataCoverage` (metrics.go lines 245-250). -/
def RecordMetadataCoverage (provider : String) (chain : String)
    (field : String) (present : Bool) : List MetricEffect :=
  [.incCounter "metadata_coverage_checks_total" [provider, chain, field]] ++
    (if present then
      [.incCounter "metadata_coverage_success_total" [provider, chain, field]]
    else [])

/-- Embeds `RecordMetadataLatency` (metrics.go lines 253-255). -/
def RecordMetadataLatency (provider : String) (chain : String)
    (latencyMs : ℚ) : List MetricEffect :=
  [.observeHistogram "metadata_api_latency_milliseconds" [provider, chain] latencyMs]

/-- Embeds the `MobulaTradeData` payload of mobula_monitor.go. -/
structure MobulaTradeData where
  date : Int
  tokenPrice : ℚ
  tokenPriceVs : ℚ
  tokenAmount : ℚ
  tokenAmountVs : ℚ
  tokenAmountUsd : ℚ
  type : String
  operation : String
  blockchain : String
  hash : String
  sender : String
  timestamp : Int
  pair : String
  deriving DecidableEq, Repr

/-- Embeds `getChainNameForMobula` (mobula_monitor.go). -/
def getChainNameForMobula (blockchainName : String) : String :=
  match blockchainName with
  | "Solana" | "solana" => "solana"
  | "Base" | "base" => "base"
  | "BSC" | "BNB Smart Chain" | "BNB Smart Chain (BEP20)" | "bnb" => "bnb"
  | "Monad" | "monad" => "monad"
  | other => other

/-- Embeds the per-trade body of `handleMobulaWebSocketMessages`
(mobula_monitor.go lines 150-184): a trade with an empty hash or empty
blockchain is skipped; otherwise the Mobula lag is computed and forwarded.
Returns the list of lags computed together with the metric effects. -/
def handleMobulaTrade (trade : MobulaTradeData) (receiveTimeNs : Int) :
    List Int × List MetricEffect :=
  if trade.hash = "" ∨ trade.blockchain = "" then ([], [])
  else
    let lagMs := calculateMobulaLag trade.date receiveTimeNs
    ([lagMs],
     RecordLatency "mobula" (getChainNameForMobula trade.blockchain) (lagMs : ℚ))

/-- Embeds the `CodexEvent` payload of codex_monitor.go. -/
structure CodexEvent where
  networkId : Int
  blockNumber : Int
  timestamp : Int
  transactionHash : String
  eventType : String
  token0Address : String
  token1Address : String
  token0SwapValueUsd : String
  token1SwapValueUsd : String
  deriving DecidableEq, Repr

/-- Embeds `getChainNameForCodex` (codex_monitor.go): looks the network up in
the `codexChains` table. -/
def getChainNameForCodex (networkID : Int) : String :=
  if networkID = 1399811149 then "solana"
  else if networkID = 1 then "ethereum"
  else if networkID = 8453 then "base"
  else if networkID = 56 then "bnb"
  else if networkID = 42161 then "arbitrum"
  else "network_other"

/-- Embeds the per-event body of the confirmed-events loop of
`handleCodexWebSocketMessages` (codex_monitor.go lines 275-303): events whose
type is not "Swap" or whose transaction hash is empty are skipped; otherwise
the Codex lag is computed and forwarded. -/
def handleCodexEvent (event : CodexEvent) (receiveTimeNs : Int) :
    List Int × List MetricEffect :=
  if event.eventType ≠ "Swap" then ([], [])
  else if event.transactionHash = "" then ([], [])
  else
    let lagMs := calculateCodexLag event.timestamp receiveTimeNs
    ([lagMs],
     RecordLatency "codex" (getChainNameForCodex event.networkId) (lagMs : ℚ))

/-- Embeds the `MobulaTradeEvent` payload of the head-lag monitor
(unnamed/part_002). -/
structure MobulaTradeEvent where
  blockchain : String
  date : Int
  timestamp : Int
  hash : String
  pair : String
  type : String
  tokenPrice : ℚ
  deriving DecidableEq, Repr

/-- Embeds `getChainNameFromBlockchain` (unnamed/part_002). -/
def getChainNameFromBlockchain (blockchain : String) : String :=
  match blockchain with
  | "Ethereum" | "evm:1" => "ethereum"
  | "Solana" | "solana" => "solana"
  | "Base" | "evm:8453" => "base"
  | "BNB Smart Chain (BEP20)" | "BSC" | "evm:56" => "bnb"
  | "Arbitrum" | "evm:42161" => "arbitrum"
  | other => other

/-- Embeds the per-message body of `connectAndMonitorMobula`
(unnamed/part_002 lines 184-211): a trade with an empty hash or a zero date
is skipped; otherwise the head lag is computed and recorded via
`RecordHeadLag`. The `region` argument mirrors `config.MonitorRegion`, which
this version of `RecordHeadLag` appends as a label; the metrics.go under
src/cmd/script is the four-argument authority modelled here, so the region
is ignored exactly as that version does. -/
def handleMobulaHeadLagTrade (trade : MobulaTradeEvent) (receiveTimeNs : Int) :
    List Int × List MetricEffect :=
  if trade.hash = "" ∨ trade.date = 0 then ([], [])
  else
    let lagMs := calculateMobulaLag trade.date receiveTimeNs
    ([lagMs],
     RecordHeadLag "mobula" (getChainNameFromBlockchain trade.blockchain)
       lagMs ((lagMs : ℚ) / 1000))

/-- Milliseconds in one hour, matching Go's `time.Hour` at the millisecond
granularity used throughout this development. -/
def msPerHour : Int := 3600000

/-- Embeds the `tokenCache` struct of the Defined.fi auth file
(unnamed/part_002): the cached token string, its expiry and the last refresh
instant, all instants in milliseconds since the epoch. The Go zero value has
an empty token, which every freshness check tests first. -/
structure TokenCacheState where
  token : String
  expiresAt : Int
  lastRefresh : Int
  deriving DecidableEq, Repr

/-- The Go zero value of the token cache (`globalTokenCache` at startup). -/
def emptyTokenCache : TokenCacheState := ⟨"", 0, 0⟩

/-- Embeds the freshness test of `GetDefinedJWTToken`:
`token != "" && time.Now().Before(expiresAt.Add(-1*time.Hour))`. -/
def tokenIsFresh (st : TokenCacheState) (now : Int) : Bool :=
  st.token ≠ "" && now < st.expiresAt - msPerHour

/-- The error cases of `generateDefinedJWTToken`, one constructor per
`fmt.Errorf` site; `rateLimited` corresponds to the two 429 messages (with
and without a Retry-After header). -/
inductive TokenError where
  | requestFailed (msg : String)
  | rateLimited (retryAfter : Option String)
  | unexpectedStatus (code : Int) (bodyPrefix : String)
  | decodeFailed (msg : String)
  | noToken
  deriving DecidableEq, Repr

/-- The error strings of `generateDefinedJWTToken`, following its
`fmt.Errorf` formats; the reconnection supervisor classifies errors by
searching these strings. -/
def tokenErrorMessage : TokenError → String
  | .requestFailed msg => "request failed: " ++ msg
  | .rateLimited (some ra) => "rate limited (429), retry after: " ++ ra
  | .rateLimited none => "rate limited (429), too many token requests - will retry later"
  | .unexpectedStatus _ body => "unexpected status: " ++ body
  | .decodeFailed msg => "failed to decode: " ++ msg
  | .noToken => "no token returned"

/-- The outcome of the HTTPS exchange performed by
`generateDefinedJWTToken`: either a transport error (`client.Do` failed) or
a response with a status code, an optional Retry-After header and a body. -/
inductive HTTPResult where
  | netError (msg : String)
  | response (status : Int) (retryAfter : Option String) (body : Option (List String))
  deriving DecidableEq, Repr

/-- Embeds `generateDefinedJWTToken` (unnamed/part_002 lines 602-659) as a
function of the HTTP outcome: a transport error propagates; status 429 is a
distinct rate-limited error; any other non-200 status is an error; a body
that does not unmarshal (`body = none`) is a decode error; an empty
`createApiTokens` list is an error; otherwise the first token is returned. -/
def generateDefinedJWTToken (resp : HTTPResult) : Except TokenError String :=
  match resp with
  | .netError msg => .error (.requestFailed msg)
  | .response status retryAfter body =>
    if status = 429 then .error (.rateLimited retryAfter)
    else if status ≠ 200 then .error (.unexpectedStatus status "")
    else match body with
      | none => .error (.decodeFailed "invalid character")
      | some [] => .error .noToken
      | some (t :: _) => .ok t

/-- Splits a character list at every dot, keeping empty groups, matching
Go's `strings.Split(s, ".")`. -/
def splitCharsOnDot : List Char → List (List Char)
  | [] => [[]]
  | c :: rest =>
    let groups := splitCharsOnDot rest
    if c = '.' then [] :: groups
    else
      match groups with
      | [] => [[c]]
      | g :: gs => (c :: g) :: gs

/-- Embeds Go's `strings.Split(token, ".")`. -/
def splitOnDot (s : String) : List String :=
  (splitCharsOnDot s.toList).map String.mk

/-- Embeds `decodeJWTExpiration` (unnamed/part_002 lines 528-552). The token
is split on "."; anything but exactly three parts is an invalid JWT. The
base64url decoding of the payload followed by the JSON unmarshalling of the
`exp` claim is abstracted as `decodePayload`, returning `none` on a decode
or unmarshal failure and otherwise the decoded `exp` value in seconds (Go's
missing-field default makes an absent `exp` come back as 0, which the code
rejects). A successful decode yields `time.Unix(claims.Exp, 0)`, here in
milliseconds. -/
def decodeJWTExpiration (decodePayload : String → Option Int)
    (token : String) : Option Int :=
  match splitOnDot token with
  | [_, payload, _] =>
    match decodePayload payload with
    | none => none
    | some exp => if exp = 0 then none else some (exp * 1000)
  | _ => none

/-- Log events of `GetDefinedJWTToken`, one per `fmt.Printf` site. -/
inductive AuthLogEvent where
  | decodeWarning
  | tokenRefreshed
  deriving DecidableEq, Repr

/-- Decidable equality for `Except`, needed to evaluate outcomes of the
fallible embedded operations on concrete inputs. -/
instance instDecidableEqExcept {ε α : Type} [DecidableEq ε] [DecidableEq α] :
    DecidableEq (Except ε α) := fun x y =>
  match x, y with
  | .error a, .error b =>
    if h : a = b then isTrue (congrArg Except.error h)
    else isFalse (fun hh => h (Except.error.inj hh))
  | .ok a, .ok b =>
    if h : a = b then isTrue (congrArg Except.ok h)
    else isFalse (fun hh => h (Except.ok.inj hh))
  | .error _, .ok _ => isFalse (fun hh => Except.noConfusion hh)
  | .ok _, .error _ => isFalse (fun hh => Except.noConfusion hh)

/-- The observable outcome of one `GetDefinedJWTToken` call: the returned
token or error, the cache state after the call, whether an external exchange
request was performed, and the log lines emitted. -/
structure GetTokenOutcome where
  result : Except TokenError String
  state : TokenCacheState
  exchanged : Bool
  log : List AuthLogEvent
  deriving DecidableEq, Repr

/-- Embeds `GetDefinedJWTToken` (unnamed/part_002 lines 555-599).
If the cached token is fresh (expiry more than one hour away), it is
returned with no exchange. Otherwise the write lock is taken, the freshness
condition re-checked (in this sequential embedding the state and the clock
are unchanged between the two checks, so the re-check coincides with the
first), and a new token is exchanged: an exchange error propagates with the
cache untouched; otherwise the expiry is decoded from the token, a decode
failure logging a warning and defaulting to 24 hours from now, and the
token, expiry and refresh instant are stored. -/
def GetDefinedJWTToken (decodePayload : String → Option Int)
    (st : TokenCacheState) (now : Int) (resp : HTTPResult) : GetTokenOutcome :=
  if tokenIsFresh st now then
    { result := .ok st.token, state := st, exchanged := false, log := [] }
  else
    match generateDefinedJWTToken resp with
    | .error e => { result := .error e, state := st, exchanged := true, log := [] }
    | .ok token =>
      match decodeJWTExpiration decodePayload token with
      | some expiresAt =>
        { result := .ok token
          state := ⟨token, expiresAt, now⟩
          exchanged := true
          log := [.tokenRefreshed] }
      | none =>
        { result := .ok token
          state := ⟨token, now + 24 * msPerHour, now⟩
          exchanged := true
          log := [.decodeWarning, .tokenRefreshed] }

/-- Runs `n` `GetDefinedJWTToken` calls in sequence against the shared cache,
with a fixed clock and a fixed exchange outcome. The cache's `sync.RWMutex`
serializes the callers' critical sections; a caller that reaches the write
lock after another caller refreshed re-checks freshness and takes the cached
token, which is the same observable behavior as taking the read-locked fast
path, so the race is modelled by this serialization. Returns the callers'
results, the final state and the number of exchange requests performed. -/
def runGetTokenCallers (decodePayload : String → Option Int) (now : Int)
    (resp : HTTPResult) :
    Nat → TokenCacheState → List (Except TokenError String) × TokenCacheState × Nat
  | 0, st => ([], st, 0)
  | n + 1, st =>
    let o := GetDefinedJWTToken decodePayload st now resp
    let (rs, st'', c) := runGetTokenCallers decodePayload now resp n o.state
    (o.result :: rs, st'', c + (if o.exchanged then 1 else 0))

/-- Checks whether `needle` occurs as a contiguous run inside `hay`,
structurally recursive on `hay`. -/
def listContainsSub (needle : List Char) : List Char → Bool
  | [] => needle.isEmpty
  | c :: rest => List.isPrefixOf needle (c :: rest) || listContainsSub needle rest

/-- Embeds Go's `strings.Contains`. -/
def stringContains (hay : String) (needle : String) : Bool :=
  listContainsSub needle.toList hay.toList

/-- One attempt of the Mobula head-lag supervisor loop
(`runMobulaHeadLagMonitor`, unnamed/part_002 lines 94-118), as seen by that
loop: either `connectAndMonitorMobula` returned an error (with a flag
recording whether the connection and subscription had succeeded before the
failure, information the supervisor does not consult), or it returned nil,
which it does only when the stop signal fired. -/
inductive MobulaHLAttempt where
  | failed (subscribed : Bool) (msg : String)
  | cleanStop
  deriving DecidableEq, Repr

/-- One step of the Mobula head-lag supervisor: on an error it sleeps the
current delay and then doubles it, capped at 60 s; on a clean stop it resets
the delay to 5 s and exits without sleeping. Returns the sleep performed (in
ms, `none` for no sleep) and the delay carried into the next iteration. All
durations in milliseconds. -/
def mobulaHeadLagSupervisorStep (reconnectDelay : Int) :
    MobulaHLAttempt → Option Int × Int
  | .failed _ _ =>
    let slept := reconnectDelay
    let next := reconnectDelay * 2
    (some slept, if next > 60000 then 60000 else next)
  | .cleanStop => (none, 5000)

/-- The sleeps performed by the Mobula head-lag supervisor over a sequence of
attempt outcomes, starting from the given delay (initially 5000 ms). -/
def mobulaHeadLagSleeps (reconnectDelay : Int) :
    List MobulaHLAttempt → List Int
  | [] => []
  | a :: rest =>
    let (slept, next) := mobulaHeadLagSupervisorStep reconnectDelay a
    match slept with
    | some d => d :: mobulaHeadLagSleeps next rest
    | none => mobulaHeadLagSleeps next rest

/-- One attempt of the Codex head-lag supervisor loop
(`runCodexHeadLagMonitor`, unnamed/part_002 lines 266-300): an error message
from `connectAndMonitorCodex` (again with a flag recording whether
connection plus subscription had succeeded, which the supervisor does not
consult) or a nil return on stop. -/
inductive CodexHLAttempt where
  | failed (subscribed : Bool) (msg : String)
  | cleanStop
  deriving DecidableEq, Repr

/-- One step of the Codex head-lag supervisor: an error whose message
contains "rate limited (429)" replaces the current delay by a fixed 2
minutes; an authentication error invalidates the token cache (tracked by the
returned flag); the supervisor then sleeps the (possibly replaced) delay and
doubles it, capped at 5 minutes. A clean stop resets the delay to 5 s.
Returns (sleep, next delay, cache invalidated). -/
def codexHeadLagSupervisorStep (reconnectDelay : Int) :
    CodexHLAttempt → Option Int × Int × Bool
  | .failed _ msg =>
    let delay :=
      if stringContains msg "rate limited (429)" then 120000 else reconnectDelay
    let invalidated :=
      !stringContains msg "rate limited (429)" &&
        (stringContains msg "authentication" || stringContains msg "401")
    let next := delay * 2
    (some delay, if next > 300000 then 300000 else next, invalidated)
  | .cleanStop => (none, 5000, false)

/-- The sleeps performed by the Codex head-lag supervisor over a sequence of
attempt outcomes, starting from the given delay (initially 30000 ms). -/
def codexHeadLagSleeps (reconnectDelay : Int) : List CodexHLAttempt → List Int
  | [] => []
  | a :: rest =>
    let (slept, next, _) := codexHeadLagSupervisorStep reconnectDelay a
    match slept with
    | some d => d :: codexHeadLagSleeps next rest
    | none => codexHeadLagSleeps next rest

/-- One attempt of the Codex trade-monitor supervisor loop
(`runCodexMonitor`, codex_monitor.go lines 336-396): the connection attempt
failed, a subscription send failed, or connection and subscription succeeded
and the receive loop later returned (read error or closure). -/
inductive CodexAttempt where
  | connectFailed (msg : String)
  | subscribeFailed (msg : String)
  | streamEnded
  deriving DecidableEq, Repr

/-- One step of the Codex trade-monitor supervisor: a connect or subscribe
failure sleeps the current delay and doubles it, capped at 60 s; after a
successful connection-plus-subscription cycle the delay is reset to 5 s
before the receive loop, and when the stream later ends the loop sleeps that
reset delay, so the next iteration starts from 5 s. -/
def codexMonitorSupervisorStep (reconnectDelay : Int) :
    CodexAttempt → Option Int × Int
  | .connectFailed _ =>
    let next := reconnectDelay * 2
    (some reconnectDelay, if next > 60000 then 60000 else next)
  | .subscribeFailed _ =>
    let next := reconnectDelay * 2
    (some reconnectDelay, if next > 60000 then 60000 else next)
  | .streamEnded => (some 5000, 5000)

/-- The sleeps performed by the Codex trade-monitor supervisor over a
sequence of attempt outcomes, starting from the given delay (initially
5000 ms). -/
def codexMonitorSleeps (reconnectDelay : Int) : List CodexAttempt → List Int
  | [] => []
  | a :: rest =>
    let (slept, next) := codexMonitorSupervisorStep reconnectDelay a
    match slept with
    | some d => d :: codexMonitorSleeps next rest
    | none => codexMonitorSleeps next rest

/-- Embeds `TokenToCheck` (metadata_coverage_monitor.go): a token discovered
on a stream that awaits a metadata coverage check. `detectedAt` is in
milliseconds since the epoch. -/
structure TokenToCheck where
  address : String
  chainID : String
  symbol : String
  name : String
  detectedAt : Int
  deriving DecidableEq, Repr

/-- The capacity of `tokenQueue` (metadata_coverage_monitor.go line 75):
`make(chan TokenToCheck, 100)`. -/
def tokenQueueCapacity : Nat := 100

/-- Embeds `QueueTokenForMetadataCheck` (metadata_coverage_monitor.go lines
546-554): a `select` with a `default` branch on the bounded channel. If the
queue has room the token is appended; otherwise the call returns at once,
leaving the queue unchanged, performing no metric operation, and printing a
queue-full line. Returns (new queue, metric effects, log lines). -/
def QueueTokenForMetadataCheck (queue : List TokenToCheck)
    (token : TokenToCheck) : List TokenToCheck × List MetricEffect × List String :=
  if queue.length < tokenQueueCapacity then (queue ++ [token], [], [])
  else (queue, [],
    ["[METADATA] Queue full, skipping token: " ++ token.address])

/-- Go string slicing `s[:n]`: defined when `n ≤ len(s)`, a runtime panic
(slice bounds out of range) otherwise, modelled as `none`. The addresses
handled here are ASCII, so character count and byte count coincide. -/
def goStringSliceTo (s : String) (n : Nat) : Option String :=
  if n ≤ s.length then some (String.mk (s.toList.take n)) else none

/-- Embeds the `MetadataFields` result struct of
metadata_coverage_monitor.go. -/
structure MetadataFields where
  hasLogo : Bool
  hasName : Bool
  hasSymbol : Bool
  hasDescription : Bool
  hasTwitter : Bool
  hasWebsite : Bool
  hasTelegram : Bool
  logoURL : String
  responseTimeMs : ℚ
  error : String
  deriving DecidableEq, Repr

/-- Embeds `checkTokenMetadata` (metadata_coverage_monitor.go lines 457-543)
at the granularity the dispatcher claims need. Its first log line evaluates
`token.Address[:16]+"..."`, which panics when the address is shorter than 16
bytes (`none`); otherwise the Mobula and Codex provider checks run (their
HTTP results are the `mobulaResult`/`codexResult` parameters) and the
coverage and latency metrics are recorded for both providers. -/
def checkTokenMetadata (token : TokenToCheck) (chainName : String)
    (mobulaResult codexResult : MetadataFields) : Option (List MetricEffect) :=
  match goStringSliceTo token.address 16 with
  | none => none
  | some _ =>
    some (RecordMetadataCoverage "mobula" chainName "logo" mobulaResult.hasLogo ++
      RecordMetadataCoverage "mobula" chainName "description" mobulaResult.hasDescription ++
      RecordMetadataCoverage "mobula" chainName "twitter" mobulaResult.hasTwitter ++
      RecordMetadataCoverage "mobula" chainName "website" mobulaResult.hasWebsite ++
      RecordMetadataLatency "mobula" chainName mobulaResult.responseTimeMs ++
      RecordMetadataCoverage "codex" chainName "logo" codexResult.hasLogo ++
      RecordMetadataCoverage "codex" chainName "description" codexResult.hasDescription ++
      RecordMetadataCoverage "codex" chainName "twitter" codexResult.hasTwitter ++
      RecordMetadataCoverage "codex" chainName "website" codexResult.hasWebsite ++
      RecordMetadataLatency "codex" chainName codexResult.responseTimeMs)

/-- Exact cancellation for the truncating millisecond division on whole
multiples of 10^6 nanoseconds. -/
theorem durationMilliseconds_mul (a : Int) :
    durationMilliseconds (a * nsPerMs) = a := by
  simp [durationMilliseconds, nsPerMs, Int.mul_tdiv_cancel]

/-- C8: the Lag Calculator is the pure difference between the receipt
instant and the on-chain instant. For every on-chain timestamp `t` and every
receipt instant expressed in whole milliseconds, the Mobula and CoinGecko
lag (millisecond-precision timestamps) equals `receiptMs - t` and the Codex
lag (second-precision timestamps) equals `receiptMs - 1000 * t`. -/
theorem c8_lag_calculator_pure_difference (t receiptMs : Int) :
    calculateMobulaLag t (receiptMs * nsPerMs) = receiptMs - t ∧
    calculateCoinGeckoLag t (receiptMs * nsPerMs) = receiptMs - t ∧
    calculateCodexLag t (receiptMs * nsPerMs) = receiptMs - 1000 * t := by
  refine ⟨?_, ?_, ?_⟩
  · have h : receiptMs * nsPerMs - timeUnixMilli t = (receiptMs - t) * nsPerMs := by
      simp [timeUnixMilli]; ring
    simp [calculateMobulaLag, h, durationMilliseconds_mul]
  · have h : receiptMs * nsPerMs - timeUnixMilli t = (receiptMs - t) * nsPerMs := by
      simp [timeUnixMilli]; ring
    simp [calculateCoinGeckoLag, h, durationMilliseconds_mul]
  · have h : receiptMs * nsPerMs - timeUnix t = (receiptMs - 1000 * t) * nsPerMs := by
      simp [timeUnix, nsPerSec, nsPerMs]; ring
    simp [calculateCodexLag, h, durationMilliseconds_mul]

/-- C1 counterexample: `RecordHeadLag` performs no sanity-bounds check, so an
out-of-bounds lag measurement reaches the sink. A lag of -5000 ms (negative
beyond any skew tolerance) and a lag of 999999999 ms (far above the 120000
ms ceiling) are both recorded on the head-lag gauges, contradicting the
claim that such measurements are discarded and never recorded. -/
theorem c1_head_lag_not_filtered :
    RecordHeadLag "mobula" "ethereum" (-5000) (-5) =
      [.setGauge "head_lag_milliseconds" ["mobula", "ethereum"] (-5000),
       .setGauge "head_lag_seconds" ["mobula", "ethereum"] (-5)] ∧
    RecordHeadLag "mobula" "ethereum" (-5000) (-5) ≠ [] ∧
    RecordHeadLag "codex" "base" 999999999 999999 ≠ [] := by
  refine ⟨rfl, ?_, ?_⟩ <;> decide

/-- C1 (amended): the sanity bounds are enforced only on the pool-discovery
recording path. `RecordPoolDiscoveryLatency` discards a measurement that is
negative (the skew tolerance is zero) or above 120000 ms and records
in-bounds measurements; `RecordHeadLag` applies no bounds check and records
every value it is given. -/
theorem c1_sanity_bounds_amended (a c : String) (l : ℚ) :
    (l < 0 ∨ l > 120000 → RecordPoolDiscoveryLatency a c l = []) ∧
    (0 ≤ l → l ≤ 120000 →
      RecordPoolDiscoveryLatency a c l =
        [.setGauge "pool_discovery_latency_milliseconds" [a, c] l]) ∧
    (∀ lagBlocks : Int, ∀ lagSeconds : ℚ,
      RecordHeadLag a c lagBlocks lagSeconds =
        [.setGauge "head_lag_milliseconds" [a, c] (lagBlocks : ℚ),
         .setGauge "head_lag_seconds" [a, c] lagSeconds]) := by
  refine ⟨?_, ?_, fun _ _ => rfl⟩
  · intro h
    simp [RecordPoolDiscoveryLatency, h]
  · intro h1 h2
    rw [RecordPoolDiscoveryLatency, if_neg]
    rintro (h | h) <;> linarith

/-- C1 witness: the amended bounds behavior at concrete values (a negative
measurement is dropped, an in-bounds one of 150 ms is recorded). -/
theorem c1_sanity_bounds_amended_witness :
    RecordPoolDiscoveryLatency "mobula-pulse" "solana" (-5) = [] ∧
    RecordPoolDiscoveryLatency "mobula-pulse" "solana" 150 =
      [.setGauge "pool_discovery_latency_milliseconds" ["mobula-pulse", "solana"] 150] :=
  ⟨(c1_sanity_bounds_amended "mobula-pulse" "solana" (-5)).1 (Or.inl (by norm_num)),
   (c1_sanity_bounds_amended "mobula-pulse" "solana" 150).2.1 (by norm_num) (by norm_num)⟩

/-- A queue filled to its capacity of 100 (the bounded `tokenQueue`). -/
def fullTokenQueue : List TokenToCheck :=
  List.replicate tokenQueueCapacity ⟨"0xaaaaaaaaaaaaaaaaaaaa", "evm:1", "T", "T", 0⟩

/-- C4 counterexample: enqueuing into the full queue drops the newest
request and leaves the queue unchanged, but the drop performs no metric
operation at all — in particular no drop counter is incremented; the only
observable trace of the drop is a printed log line. This contradicts the
claim that a drop counter is incremented. -/
theorem c4_drop_increments_no_counter :
    (QueueTokenForMetadataCheck fullTokenQueue ⟨"0xbb", "evm:1", "N", "N", 5⟩).1 =
      fullTokenQueue ∧
    (QueueTokenForMetadataCheck fullTokenQueue ⟨"0xbb", "evm:1", "N", "N", 5⟩).2.1 = [] ∧
    (QueueTokenForMetadataCheck fullTokenQueue ⟨"0xbb", "evm:1", "N", "N", 5⟩).2.2 =
      ["[METADATA] Queue full, skipping token: 0xbb"] := by
  refine ⟨?_, ?_, ?_⟩ <;> rfl

/-- C4 (amended): enqueuing a Check Request never blocks the caller; below
capacity the request is appended exactly once with no further effect, and at
capacity the newest request is dropped, the queue and all metrics are left
unchanged, and the drop is observable only through a printed log line — no
drop counter is incremented. -/
theorem c4_enqueue_amended (q : List TokenToCheck) (t : TokenToCheck) :
    (q.length < tokenQueueCapacity →
      QueueTokenForMetadataCheck q t = (q ++ [t], [], [])) ∧
    (tokenQueueCapacity ≤ q.length →
      QueueTokenForMetadataCheck q t =
        (q, [], ["[METADATA] Queue full, skipping token: " ++ t.address])) := by
  constructor <;> intro h
  · simp [QueueTokenForMetadataCheck, h]
  · rw [QueueTokenForMetadataCheck, if_neg]
    omega

/-- C4 witness: the amended enqueue behavior at concrete queues (an empty
queue accepts the request; the full queue drops it with only a log line). -/
theorem c4_enqueue_amended_witness :
    QueueTokenForMetadataCheck [] ⟨"0xbb", "evm:1", "N", "N", 5⟩ =
      ([⟨"0xbb", "evm:1", "N", "N", 5⟩], [], []) ∧
    QueueTokenForMetadataCheck fullTokenQueue ⟨"0xbb", "evm:1", "N", "N", 5⟩ =
      (fullTokenQueue, [], ["[METADATA] Queue full, skipping token: 0xbb"]) :=
  ⟨(c4_enqueue_amended [] ⟨"0xbb", "evm:1", "N", "N", 5⟩).1 (by decide),
   (c4_enqueue_amended fullTokenQueue ⟨"0xbb", "evm:1", "N", "N", 5⟩).2 (by decide)⟩

/-- The all-empty `MetadataFields` value (the Go zero value of the result
struct before any field is filled in). -/
def zeroMetadataFields : MetadataFields :=
  ⟨false, false, false, false, false, false, false, "", 0, ""⟩

/-- C10: the metadata check panics on short addresses. The worker's first
log line evaluates `token.Address[:16]+"..."`, which is a slice out of
range for any address shorter than 16 bytes, so `checkTokenMetadata` on the
4-byte address "0xab" aborts (panics) before recording anything, while a
full-length pool address completes. This contradicts the claim (and the
spec's rule that nothing in this core is fatal to the process). -/
theorem c10_short_address_check_panics :
    checkTokenMetadata ⟨"0xab", "evm:1", "AB", "AB", 0⟩ "ethereum"
      zeroMetadataFields zeroMetadataFields = none ∧
    (checkTokenMetadata
      ⟨"0x4c36388be6f416a29c8d8eee81c771ce6be14b18", "evm:8453", "WETH", "WETH", 0⟩
      "base" zeroMetadataFields zeroMetadataFields).isSome = true := by
  refine ⟨rfl, ?_⟩
  decide

/-- A fresh cached token is returned unchanged with no exchange. -/
theorem getToken_of_fresh (dp : String → Option Int) (st : TokenCacheState)
    (now : Int) (resp : HTTPResult) (h : tokenIsFresh st now = true) :
    GetDefinedJWTToken dp st now resp =
      { result := .ok st.token, state := st, exchanged := false, log := [] } := by
  simp [GetDefinedJWTToken, h]

/-- A stale cache always performs an exchange request. -/
theorem getToken_stale_exchanged (dp : String → Option Int)
    (st : TokenCacheState) (now : Int) (resp : HTTPResult)
    (h : tokenIsFresh st now = false) :
    (GetDefinedJWTToken dp st now resp).exchanged = true := by
  rw [GetDefinedJWTToken, if_neg (by simp [h])]
  rcases generateDefinedJWTToken resp with e | t
  · rfl
  · rcases hdec : decodeJWTExpiration dp t with _ | e <;> simp [hdec]

/-- C2: `GetDefinedJWTToken` returns the cached token with no external
exchange exactly when a cached token exists whose expiry minus the 1-hour
safety margin is still in the future; with a cached expiry 30 minutes away
every call performs an exchange, and with a cached expiry 2 hours away the
cached token is returned with no exchange and no state change. Instants are
in milliseconds. -/
theorem c2_token_cache_freshness (dp : String → Option Int)
    (st : TokenCacheState) (now : Int) (resp : HTTPResult) :
    ((GetDefinedJWTToken dp st now resp).exchanged = false ↔
      tokenIsFresh st now = true) ∧
    (tokenIsFresh st now = true →
      GetDefinedJWTToken dp st now resp =
        { result := .ok st.token, state := st, exchanged := false, log := [] }) ∧
    (∀ tok lastRefresh : _,
      (GetDefinedJWTToken dp ⟨tok, now + 1800000, lastRefresh⟩ now resp).exchanged
        = true) ∧
    (∀ tok lastRefresh : _, tok ≠ "" →
      GetDefinedJWTToken dp ⟨tok, now + 7200000, lastRefresh⟩ now resp =
        { result := .ok tok, state := ⟨tok, now + 7200000, lastRefresh⟩,
          exchanged := false, log := [] }) := by
  refine ⟨?_, getToken_of_fresh dp st now resp, ?_, ?_⟩
  · constructor
    · intro h
      by_contra hf
      rw [Bool.not_eq_true] at hf
      rw [getToken_stale_exchanged dp st now resp hf] at h
      exact Bool.true_eq_false.mp h
    · intro h
      rw [getToken_of_fresh dp st now resp h]
  · intro tok lastRefresh
    refine getToken_stale_exchanged dp _ now resp ?_
    have h30 : ¬ (now < now + 1800000 - msPerHour) := by
      simp [msPerHour]
    simp [tokenIsFresh, h30]
  · intro tok lastRefresh htok
    refine getToken_of_fresh dp _ now resp ?_
    have h2h : now < now + 7200000 - msPerHour := by
      simp only [msPerHour]
      omega
    simp [tokenIsFresh, htok, h2h]

/-- C2 witness: the freshness behavior at concrete inputs — a token expiring
2 hours from now (7200000 ms) is returned from the cache with no exchange,
and a cache whose expiry is 30 minutes away exchanges. -/
theorem c2_token_cache_freshness_witness :
    GetDefinedJWTToken (fun _ => none) ⟨"tok", 7200000, 0⟩ 0 (.netError "x") =
      { result := .ok "tok", state := ⟨"tok", 7200000, 0⟩,
        exchanged := false, log := [] } ∧
    (GetDefinedJWTToken (fun _ => none) ⟨"tok", 1800000, 0⟩ 0 (.netError "x")).exchanged
      = true :=
  ⟨(c2_token_cache_freshness (fun _ => none) ⟨"tok", 7200000, 0⟩ 0
      (.netError "x")).2.2.2 "tok" 0 (by decide),
   (c2_token_cache_freshness (fun _ => none) ⟨"tok", 1800000, 0⟩ 0
      (.netError "x")).2.2.1 "tok" 0⟩

/-- C6: when the token exchange fails, `GetDefinedJWTToken` propagates the
error and leaves the cached token, expiry and last-refresh instant
untouched; a 429 response from the issuing service yields the distinct
rate-limited error, whose message the Codex head-lag supervisor recognizes
(applying the fixed 2-minute delay) while an ordinary network failure
message is not recognized as rate limiting. -/
theorem c6_exchange_failure_propagates (dp : String → Option Int)
    (st : TokenCacheState) (now : Int) (m : String) (code : Int)
    (hstale : tokenIsFresh st now = false) :
    (GetDefinedJWTToken dp st now (.netError m) =
      { result := .error (.requestFailed m), state := st,
        exchanged := true, log := [] }) ∧
    (code ≠ 200 → code ≠ 429 → ∀ retryAfter body,
      GetDefinedJWTToken dp st now (.response code retryAfter body) =
        { result := .error (.unexpectedStatus code ""), state := st,
          exchanged := true, log := [] }) ∧
    (∀ retryAfter body,
      generateDefinedJWTToken (.response 429 retryAfter body) =
        .error (.rateLimited retryAfter)) ∧
    (stringContains (tokenErrorMessage (.rateLimited none))
      "rate limited (429)" = true) ∧
    (stringContains (tokenErrorMessage (.requestFailed "context deadline exceeded"))
      "rate limited (429)" = false) ∧
    (∀ delay : Int,
      (codexHeadLagSupervisorStep delay
        (.failed false (tokenErrorMessage (.rateLimited none)))).1 = some 120000) := by
  refine ⟨?_, ?_, ?_, by decide, by decide, ?_⟩
  · rw [GetDefinedJWTToken, if_neg (by simp [hstale])]
    rfl
  · intro h200 h429 retryAfter body
    rw [GetDefinedJWTToken, if_neg (by simp [hstale])]
    simp [generateDefinedJWTToken, h200, h429]
  · intro retryAfter body
    simp [generateDefinedJWTToken]
  · intro delay
    have hrl : stringContains (tokenErrorMessage (.rateLimited none))
        "rate limited (429)" = true := by decide
    simp [codexHeadLagSupervisorStep, hrl]

/-- C6 witness: the failure modes at concrete inputs — a cold cache with a
network failure returns the request error and an unchanged cache, and a
500-status exchange propagates its status error. -/
theorem c6_exchange_failure_propagates_witness :
    GetDefinedJWTToken (fun _ => none) emptyTokenCache 0 (.netError "dial timeout") =
      { result := .error (.requestFailed "dial timeout"), state := emptyTokenCache,
        exchanged := true, log := [] } ∧
    GetDefinedJWTToken (fun _ => none) emptyTokenCache 0 (.response 500 none none) =
      { result := .error (.unexpectedStatus 500 ""), state := emptyTokenCache,
        exchanged := true, log := [] } :=
  ⟨(c6_exchange_failure_propagates (fun _ => none) emptyTokenCache 0
      "dial timeout" 500 (by decide)).1,
   (c6_exchange_failure_propagates (fun _ => none) emptyTokenCache 0
      "dial timeout" 500 (by decide)).2.1 (by decide) (by decide) none none⟩

/-- C7: a fresh exchange whose token expiry cannot be decoded still
succeeds — the cache is populated with the token, the conservative default
expiry 24 hours from now, and the refresh instant, a warning is logged, and
the token is returned. -/
theorem c7_decode_failure_defaults_24h (dp : String → Option Int)
    (st : TokenCacheState) (now : Int) (t : String) (resp : HTTPResult)
    (hstale : tokenIsFresh st now = false)
    (hgen : generateDefinedJWTToken resp = .ok t)
    (hdec : decodeJWTExpiration dp t = none) :
    GetDefinedJWTToken dp st now resp =
      { result := .ok t, state := ⟨t, now + 24 * msPerHour, now⟩,
        exchanged := true, log := [.decodeWarning, .tokenRefreshed] } := by
  rw [GetDefinedJWTToken, if_neg (by simp [hstale]), hgen]
  simp [hdec]

/-- C7 witness: a token that is not a three-part JWT ("notajwt") exchanged
at time 0 is cached until 86400000 ms (24 hours) with a warning logged and
is still returned. -/
theorem c7_decode_failure_defaults_24h_witness :
    GetDefinedJWTToken (fun _ => none) emptyTokenCache 0
      (.response 200 none (some ["notajwt"])) =
      { result := .ok "notajwt", state := ⟨"notajwt", 86400000, 0⟩,
        exchanged := true, log := [.decodeWarning, .tokenRefreshed] } := by
  have h := c7_decode_failure_defaults_24h (fun _ => none) emptyTokenCache 0
    "notajwt" (.response 200 none (some ["notajwt"])) (by decide) (by decide)
    (by decide)
  simpa [msPerHour] using h

/-- On a fresh cache every serialized caller returns the cached token, never
exchanges, and leaves the state unchanged. -/
theorem runGetTokenCallers_of_fresh (dp : String → Option Int) (now : Int)
    (resp : HTTPResult) (m : Nat) (st : TokenCacheState)
    (h : tokenIsFresh st now = true) :
    runGetTokenCallers dp now resp m st =
      (List.replicate m (.ok st.token), st, 0) := by
  induction m with
  | zero => rfl
  | succ k ih =>
    rw [runGetTokenCallers, getToken_of_fresh dp st now resp h, ih]
    rfl

/-- The cached expiry produced by a refresh: the decoded expiry, or 24 hours
from now when the token's expiry cannot be decoded. -/
def refreshedExpiry (dp : String → Option Int) (now : Int) (t : String) : Int :=
  (decodeJWTExpiration dp t).getD (now + 24 * msPerHour)

/-- A stale cache with a successful exchange refreshes to the exchanged
token with the decoded (or defaulted) expiry. -/
theorem getToken_stale_refreshes (dp : String → Option Int)
    (st : TokenCacheState) (now : Int) (resp : HTTPResult) (t : String)
    (hstale : tokenIsFresh st now = false)
    (hgen : generateDefinedJWTToken resp = .ok t) :
    (GetDefinedJWTToken dp st now resp).result = .ok t ∧
    (GetDefinedJWTToken dp st now resp).state =
      ⟨t, refreshedExpiry dp now t, now⟩ ∧
    (GetDefinedJWTToken dp st now resp).exchanged = true := by
  rw [GetDefinedJWTToken, if_neg (by simp [hstale]), hgen]
  rcases hdec : decodeJWTExpiration dp t with _ | e <;>
    simp [hdec, refreshedExpiry]

/-- C9: with callers serialized by the cache's RWMutex, `n + 1` `get_token`
calls on a cold cache perform exactly one exchange request and every caller
receives the same token; the refresh is a single atomic state update, so no
caller observes a partially written token. Requires that the exchange
succeeds with a nonempty token whose cached expiry (decoded, or the 24-hour
default) is more than the 1-hour safety margin away, as any freshly issued
token's is. -/
theorem c9_cold_cache_single_exchange (dp : String → Option Int) (now : Int)
    (resp : HTTPResult) (t : String) (n : Nat)
    (hgen : generateDefinedJWTToken resp = .ok t) (ht : t ≠ "")
    (hfresh : now < refreshedExpiry dp now t - msPerHour) :
    runGetTokenCallers dp now resp (n + 1) emptyTokenCache =
      (List.replicate (n + 1) (.ok t),
       ⟨t, refreshedExpiry dp now t, now⟩, 1) := by
  have hcold : tokenIsFresh emptyTokenCache now = false := by
    simp [tokenIsFresh, emptyTokenCache]
  obtain ⟨hres, hstate, hexch⟩ :=
    getToken_stale_refreshes dp emptyTokenCache now resp t hcold hgen
  have hfresh1 : tokenIsFresh ⟨t, refreshedExpiry dp now t, now⟩ now = true := by
    simp [tokenIsFresh, ht, hfresh]
  rw [runGetTokenCallers, hstate,
    runGetTokenCallers_of_fresh dp now resp n _ hfresh1, hres, hexch]
  rfl

/-- C9 witness: three callers on a cold cache at time 0, with the exchange
returning the three-part token "aa.bb.cc" whose payload decodes to an expiry
of 86400 s: one exchange happens and all three callers get the token. -/
theorem c9_cold_cache_single_exchange_witness :
    runGetTokenCallers (fun _ => some 86400) 0
      (.response 200 none (some ["aa.bb.cc"])) 3 emptyTokenCache =
      (List.replicate 3 (.ok "aa.bb.cc"), ⟨"aa.bb.cc", 86400000, 0⟩, 1) := by
  have h := c9_cold_cache_single_exchange (fun _ => some 86400) 0
    (.response 200 none (some ["aa.bb.cc"])) "aa.bb.cc" 2 (by decide)
    (by decide) (by decide)
  simpa [refreshedExpiry] using h

/-- C3 counterexample: two supervisor behaviors contradict the claim.
First, in the Codex head-lag supervisor a failure that follows a fully
successful connection-plus-subscription cycle sleeps the accumulated
backoff, not the base: after one transient failure (sleep 30 s, backoff
doubled) a successful streaming period ending in a read error sleeps 60 s,
not the base 30 s, because that supervisor resets the delay only on a clean
stop. Second, the Codex trade-monitor supervisor has no rate-limit
classification at all: a rate-limited connection failure sleeps the current
5 s backoff instead of the fixed 2 minutes. -/
theorem c3_backoff_counterexample :
    codexHeadLagSleeps 30000
      [.failed false "failed to get JWT token: request failed: dial timeout",
       .failed true "read failed: unexpected EOF"] = [30000, 60000] ∧
    (60000 : Int) ≠ 30000 ∧
    codexMonitorSleeps 5000
      [.connectFailed "failed to read connection_ack: rate limited (429)"] =
      [5000] ∧
    (5000 : Int) ≠ 120000 := by
  refine ⟨by decide, by decide, by decide, by decide⟩

/-- C3 (amended): in every supervisor three consecutive transient failures
sleep base, 2*base and 4*base, and the carried backoff never exceeds the
provider's maximum. Only the Codex head-lag supervisor classifies
rate-limit failures, sleeping the fixed 2 minutes whatever the current
backoff; the Codex trade-monitor supervisor applies ordinary exponential
backoff to them. The Codex trade-monitor supervisor resets the backoff to
its 5 s base after a successful connection-plus-subscription cycle, before
the receive loop, so the failure ending that cycle and the next failure
both sleep the base; the Mobula and Codex head-lag supervisors reset only
on a clean stop, so there a failure after a successful streaming period
sleeps the accumulated backoff unchanged. -/
theorem c3_backoff_amended :
    (mobulaHeadLagSleeps 5000
      [.failed false "dial failed: a", .failed false "dial failed: b",
       .failed false "dial failed: c"] = [5000, 10000, 20000]) ∧
    (codexHeadLagSleeps 30000
      [.failed false "dial failed: a", .failed false "dial failed: b",
       .failed false "dial failed: c"] = [30000, 60000, 120000]) ∧
    (codexMonitorSleeps 5000
      [.connectFailed "a", .connectFailed "b", .connectFailed "c"] =
      [5000, 10000, 20000]) ∧
    (∀ d : Int, ∀ s : Bool, ∀ m : String,
      (mobulaHeadLagSupervisorStep d (.failed s m)).2 ≤ 60000) ∧
    (∀ d : Int, ∀ s : Bool, ∀ m : String,
      (codexHeadLagSupervisorStep d (.failed s m)).2.1 ≤ 300000) ∧
    (∀ d : Int, ∀ m : String,
      (codexMonitorSupervisorStep d (.connectFailed m)).2 ≤ 60000 ∧
      (codexMonitorSupervisorStep d (.subscribeFailed m)).2 ≤ 60000 ∧
      (codexMonitorSupervisorStep d .streamEnded).2 = 5000) ∧
    (∀ d : Int,
      (codexHeadLagSupervisorStep d
        (.failed false (tokenErrorMessage (.rateLimited none)))).1 =
        some 120000) ∧
    (∀ d : Int, codexMonitorSleeps d [.streamEnded, .connectFailed "x"] =
      [5000, 5000]) ∧
    (∀ d : Int, codexHeadLagSleeps d [.failed true "read failed: EOF"] = [d]) := by
  refine ⟨by decide, by decide, by decide, ?_, ?_, ?_, ?_, ?_, ?_⟩
  · intro d s m
    simp only [mobulaHeadLagSupervisorStep]
    split <;> omega
  · intro d s m
    simp only [codexHeadLagSupervisorStep]
    split <;> split <;> omega
  · intro d m
    refine ⟨?_, ?_, rfl⟩ <;>
    · simp only [codexMonitorSupervisorStep]
      split <;> omega
  · intro d
    have hrl : stringContains (tokenErrorMessage (.rateLimited none))
        "rate limited (429)" = true := by decide
    simp [codexHeadLagSupervisorStep, hrl]
  · intro d
    simp [codexMonitorSleeps, codexMonitorSupervisorStep]
  · intro d
    have hno : stringContains "read failed: EOF" "rate limited (429)" = false := by
      decide
    simp [codexHeadLagSleeps, codexHeadLagSupervisorStep, hno]

/-- C5 counterexample: the trade-monitor stream clients do not filter events
with a missing (zero) on-chain timestamp. A Mobula trade with hash "0xabc"
and date 0 and a Codex Swap event with transaction hash "0xdef" and
timestamp 0 both have a (huge) lag computed and forwarded to the sink,
contradicting the claim that events missing an on-chain timestamp are
filtered out with no lag computed. -/
theorem c5_zero_timestamp_not_filtered :
    (handleMobulaTrade
      ⟨0, 0, 0, 0, 0, 0, "buy", "buy", "Base", "0xabc", "0xsender", 0, "pair"⟩
      (1700000000500 * nsPerMs)).1 = [1700000000500] ∧
    (handleMobulaTrade
      ⟨0, 0, 0, 0, 0, 0, "buy", "buy", "Base", "0xabc", "0xsender", 0, "pair"⟩
      (1700000000500 * nsPerMs)).2 ≠ [] ∧
    (handleCodexEvent ⟨8453, 0, 0, "0xdef", "Swap", "", "", "", ""⟩
      (1700000000500 * nsPerMs)).1 = [1700000000500] ∧
    (handleCodexEvent ⟨8453, 0, 0, "0xdef", "Swap", "", "", "", ""⟩
      (1700000000500 * nsPerMs)).2 ≠ [] := by
  refine ⟨by decide, by decide, by decide, by decide⟩

/-- C5 (amended): all stream clients filter events missing a transaction
identifier, and the head-lag Mobula client also filters a zero on-chain
timestamp; but the Mobula trade client filters only an empty hash or empty
blockchain and the Codex trade client only a non-Swap type or empty hash,
so an event carrying both required fields — and in the trade clients even
one with a zero timestamp — has its lag computed and forwarded. -/
theorem c5_event_filtering_amended :
    (∀ trade : MobulaTradeData, ∀ r : Int,
      trade.hash = "" ∨ trade.blockchain = "" →
      handleMobulaTrade trade r = ([], [])) ∧
    (∀ trade : MobulaTradeData, ∀ r : Int,
      trade.hash ≠ "" → trade.blockchain ≠ "" →
      handleMobulaTrade trade r =
        ([calculateMobulaLag trade.date r],
         RecordLatency "mobula" (getChainNameForMobula trade.blockchain)
           ((calculateMobulaLag trade.date r : Int) : ℚ))) ∧
    (∀ event : CodexEvent, ∀ r : Int,
      event.eventType ≠ "Swap" ∨ event.transactionHash = "" →
      handleCodexEvent event r = ([], [])) ∧
    (∀ event : CodexEvent, ∀ r : Int,
      event.eventType = "Swap" → event.transactionHash ≠ "" →
      handleCodexEvent event r =
        ([calculateCodexLag event.timestamp r],
         RecordLatency "codex" (getChainNameForCodex event.networkId)
           ((calculateCodexLag event.timestamp r : Int) : ℚ))) ∧
    (∀ trade : MobulaTradeEvent, ∀ r : Int,
      trade.hash = "" ∨ trade.date = 0 →
      handleMobulaHeadLagTrade trade r = ([], [])) ∧
    (∀ trade : MobulaTradeEvent, ∀ r : Int,
      trade.hash ≠ "" → trade.date ≠ 0 →
      handleMobulaHeadLagTrade trade r =
        ([calculateMobulaLag trade.date r],
         RecordHeadLag "mobula" (getChainNameFromBlockchain trade.blockchain)
           (calculateMobulaLag trade.date r)
           (((calculateMobulaLag trade.date r : Int) : ℚ) / 1000))) := by
  refine ⟨?_, ?_, ?_, ?_, ?_, ?_⟩
  · intro trade r h
    simp [handleMobulaTrade, h]
  · intro trade r h1 h2
    simp [handleMobulaTrade, h1, h2]
  · intro event r h
    rcases h with h | h
    · simp [handleCodexEvent, h]
    · by_cases he : event.eventType = "Swap" <;> simp [handleCodexEvent, he, h]
  · intro event r h1 h2
    simp [handleCodexEvent, h1, h2]
  · intro trade r h
    simp [handleMobulaHeadLagTrade, h]
  · intro trade r h1 h2
    simp [handleMobulaHeadLagTrade, h1, h2]

/-- C5 witness: the amended filtering at concrete events — the spec's
end-to-end example (event time 1700000000000 ms, receipt 1700000000500 ms)
forwards exactly one 500 ms lag; an empty-hash Mobula trade, a non-Swap
Codex event and a zero-date head-lag trade are all dropped. -/
theorem c5_event_filtering_amended_witness :
    handleMobulaTrade
      ⟨1700000000000, 0, 0, 0, 0, 0, "buy", "buy", "Base", "0xabc", "0xs", 0, "p"⟩
      (1700000000500 * nsPerMs) = ([500], [.recordLag "mobula" "base" 500]) ∧
    handleMobulaTrade
      ⟨1700000000000, 0, 0, 0, 0, 0, "buy", "buy", "Base", "", "0xs", 0, "p"⟩
      (1700000000500 * nsPerMs) = ([], []) ∧
    handleCodexEvent ⟨8453, 7, 1700000000, "0xdef", "Mint", "", "", "", ""⟩
      (1700000000500 * nsPerMs) = ([], []) ∧
    handleMobulaHeadLagTrade ⟨"evm:1", 0, 0, "0xabc", "p", "buy", 0⟩
      (1700000000500 * nsPerMs) = ([], []) := by
  refine ⟨?_, ?_, ?_, ?_⟩
  · rw [c5_event_filtering_amended.2.1
      ⟨1700000000000, 0, 0, 0, 0, 0, "buy", "buy", "Base", "0xabc", "0xs", 0, "p"⟩
      (1700000000500 * nsPerMs) (by decide) (by decide)]
    decide
  · exact c5_event_filtering_amended.1
      ⟨1700000000000, 0, 0, 0, 0, 0, "buy", "buy", "Base", "", "0xs", 0, "p"⟩
      (1700000000500 * nsPerMs) (Or.inl rfl)
  · exact c5_event_filtering_amended.2.2.1
      ⟨8453, 7, 1700000000, "0xdef", "Mint", "", "", "", ""⟩
      (1700000000500 * nsPerMs) (Or.inl (by decide))
  · exact c5_event_filtering_amended.2.2.2.2.1
      ⟨"evm:1", 0, 0, "0xabc", "p", "buy", 0⟩
      (1700000000500 * nsPerMs) (Or.inr rfl)
